import Mathlib

/-
Shallow embedding of the Indicator Data Aggregation Layer of
`src/app.py` (global-health-dashboard).

The embedded functions are `fetch_world_bank_data` (lines 129-158),
`fetch_all_countries` (110-126), `fetch_countries_by_region` (161-173),
`fetch_countries_by_income` (176-188), the country-directory resolution
in `main` (350-358), the year-filter + inner-merge of
`create_scatter_comparison` (246-257, named `join_at_year` after the
spec's contract name), and the `st.cache_data` memoisation of
`fetch_world_bank_data`.

Modelling conventions:
- A remote interaction (`requests.get` + `.json()`) is a value of
  `RResult α`: `exn` when the call raised inside the `try` block
  (transport error, timeout, JSON decode failure), otherwise
  `resp status env` with the HTTP status and the decoded JSON envelope.
  The envelope is the top-level JSON array; the code only reads its
  length and element 1, which per the upstream contract is either
  `null` (`none`) or an array of items (`some items`); element 0 is the
  metadata object, modelled in the same type and never inspected.
- Python `float` values are modelled as `ℚ` (the code only stores and
  compares them); Python `int(s)` on a string is `pyInt`, with `none`
  modelling the raised `ValueError`.
- A Python `dict` is an insertion-ordered association list;
  `dictInsert` is `d[k] = v` (overwrite in place, else append).
- `pd.DataFrame(records)` / an empty `pd.DataFrame()` are the record
  list itself / `[]`; `pd.merge(..., on='country')` produces one output
  row per matching row pair, modelled as a nested traversal (row
  multiset semantics).
-/

namespace GHDash

/-- A JSON field value as accessed by the normalizer: `missing` (the key
is absent, so `item['value']` raises `KeyError`), `null` (JSON null,
checked by `is not None`), `num q` (a value on which Python `float`
succeeds, yielding `q`), or `nonNumeric` (present but `float` raises). -/
inductive JVal where
  | missing
  | null
  | num (q : ℚ)
  | nonNumeric
  deriving Repr, DecidableEq

/-- One element of the `data[1]` array of an indicator response, with the
fields `fetch_world_bank_data` reads. `none` in `country` models a
missing/null `item['country']` or missing `['value']` inside it (the
access raises); likewise for `countryiso3code` and `date`. -/
structure WBItem where
  country : Option String
  countryiso3code : Option String
  date : Option String
  value : JVal
  deriving Repr, DecidableEq

/-- A row of the normalized indicator table (spec: IndicatorRecord). -/
structure IndicatorRecord where
  country : String
  country_code : String
  year : Int
  value : ℚ
  deriving Repr, DecidableEq

/-- Decimal digit value of a character, `none` if not a digit. -/
def digitVal (c : Char) : Option Nat :=
  if '0' ≤ c ∧ c ≤ '9' then some (c.toNat - '0'.toNat) else none

/-- Accumulate a decimal number from characters; `none` on any
non-digit. -/
def digitsToNat (acc : Nat) : List Char → Option Nat
  | [] => some acc
  | c :: cs =>
    match digitVal c with
    | some d => digitsToNat (acc * 10 + d) cs
    | none => none

/-- Model of Python `int(s)` on a string: an optionally signed
non-empty run of decimal digits, `none` when `int` raises
`ValueError`. -/
def pyInt (s : String) : Option Int :=
  match s.data with
  | [] => none
  | '-' :: [] => none
  | '-' :: cs => (digitsToNat 0 cs).map (fun n => -(n : Int))
  | '+' :: [] => none
  | '+' :: cs => (digitsToNat 0 cs).map (fun n => (n : Int))
  | cs => (digitsToNat 0 cs).map (fun n => (n : Int))

/-- The per-item body of the normalization loop in
`fetch_world_bank_data` (src/app.py lines 146-153): `.ok none` when the
item is skipped because `item['value'] is None`; `.ok (some r)` when the
record is appended; `.error ()` when evaluating the record dict raises
(missing field, null where a value is required, or a failed `int`/`float`
coercion). -/
def parseItem (it : WBItem) : Except Unit (Option IndicatorRecord) :=
  match it.value with
  | .missing => .error ()
  | .null => .ok none
  | .nonNumeric => .error ()
  | .num q =>
    match it.country, it.countryiso3code, it.date with
    | some c, some cc, some d =>
      match pyInt d with
      | some y => .ok (some ⟨c, cc, y, q⟩)
      | none => .error ()
    | _, _, _ => .error ()

/-- The `for item in data[1]` loop of `fetch_world_bank_data`: `none`
when some iteration raised (the exception aborts the loop and is caught
by the surrounding `except`), otherwise the accumulated record list. -/
def normalizeItems : List WBItem → Option (List IndicatorRecord)
  | [] => some []
  | it :: rest =>
    match parseItem it with
    | .error _ => none
    | .ok none => normalizeItems rest
    | .ok (some r) => (normalizeItems rest).map (r :: ·)

/-- Outcome of one remote call: `exn` if `requests.get`/`.json()` raised
inside the `try`; otherwise the status code and decoded JSON envelope
(element 1 is `data[1]`: `none` = JSON null, `some items` = item array). -/
inductive RResult (α : Type) where
  | exn : RResult α
  | resp (status : Nat) (env : List (Option (List α))) : RResult α
  deriving DecidableEq

/-- Embedding of `fetch_world_bank_data` (src/app.py lines 129-158) as a
function of the remote outcome: returns the normalized record list, and
`[]` (the empty DataFrame) on any failure, non-200 status, short
envelope, null/empty `data[1]`, or in-loop exception. -/
def fetch_world_bank_data (r : RResult WBItem) : List IndicatorRecord :=
  match r with
  | .exn => []
  | .resp status env =>
    if status = 200 then
      match env with
      | _ :: d :: _ =>
        match d with
        | none => []
        | some [] => []
        | some items => (normalizeItems items).getD []
      | _ => []
    else []

/-- One element of the `data[1]` array of a country-list response, with
the fields the directory functions read. `regionValue` is
`country.get('region', {}).get('value')`: `none` models a missing
`region` object or a missing `value` inside it (`.get` never raises). -/
structure CountryEntry where
  name : String
  id : String
  regionValue : Option String
  deriving Repr, DecidableEq

/-- Python dict assignment `d[k] = v` on an insertion-ordered
association list: overwrite in place when the key exists, else append. -/
def dictInsert (d : List (String × String)) (k v : String) : List (String × String) :=
  if d.any (fun p => p.1 == k) then
    d.map (fun p => if p.1 == k then (k, v) else p)
  else d ++ [(k, v)]

/-- The accumulation loop of `fetch_all_countries` (src/app.py lines
119-122): insert `name ↦ id` for every entry whose region classification
is not `'Aggregates'`. -/
def buildCountries (entries : List CountryEntry) : List (String × String) :=
  entries.foldl
    (fun d c => if c.regionValue ≠ some "Aggregates" then dictInsert d c.name c.id else d) []

/-- The dict comprehension `{c['name']: c['id'] for c in data[1]}` of
`fetch_countries_by_region` / `fetch_countries_by_income` (src/app.py
lines 170 and 185): every entry is inserted, with no filter and no sort. -/
def buildAllDict (entries : List CountryEntry) : List (String × String) :=
  entries.foldl (fun d c => dictInsert d c.name c.id) []

/-- Lexicographic strict comparison of character lists by code point —
Python's `<` on strings. (Defined directly so it computes by kernel
reduction; Lean's built-in `String.lt` decision procedure does not.) -/
def charListLt : List Char → List Char → Bool
  | [], [] => false
  | [], _ :: _ => true
  | _ :: _, [] => false
  | c :: cs, d :: ds =>
    if c < d then true
    else if d < c then false
    else charListLt cs ds

/-- Python `a < b` on strings. -/
def strLtB (a b : String) : Bool :=
  charListLt a.data b.data

/-- Python `a <= b` on strings (total order, so the negation of `b < a`). -/
def strLeB (a b : String) : Bool :=
  !(strLtB b a)

/-- The order `sorted(countries.items())` sorts by: lexicographic on the
(name, id) pair (Python tuple comparison; keys are unique in a dict, so
this is by display name first). -/
def pairLe (a b : String × String) : Prop :=
  strLtB a.1 b.1 = true ∨ (a.1 = b.1 ∧ strLeB a.2 b.2 = true)

instance decPairLe : DecidableRel pairLe := fun a b =>
  inferInstanceAs (Decidable (strLtB a.1 b.1 = true ∨ (a.1 = b.1 ∧ strLeB a.2 b.2 = true)))

/-- Python `dict(sorted(d.items()))` on an association list. -/
def sortPairs (l : List (String × String)) : List (String × String) :=
  List.insertionSort pairLe l

/-- Adjacent-pairs check that an association list is nondecreasing in
the display name (spec: "sorted by display name"). -/
def isSortedByName : List (String × String) → Bool
  | [] => true
  | [_] => true
  | a :: b :: t => strLeB a.1 b.1 && isSortedByName (b :: t)

/-- The hard-coded `SAMPLE_COUNTRIES` fallback directory of src/app.py
lines 86-107, in source order. -/
def SAMPLE_COUNTRIES : List (String × String) :=
  [("United States", "USA"), ("United Kingdom", "GBR"), ("Germany", "DEU"),
   ("France", "FRA"), ("China", "CHN"), ("India", "IND"), ("Brazil", "BRA"),
   ("Japan", "JPN"), ("Nigeria", "NGA"), ("South Africa", "ZAF"),
   ("Kenya", "KEN"), ("Pakistan", "PAK"), ("Indonesia", "IDN"),
   ("Mexico", "MEX"), ("Russia", "RUS"), ("Canada", "CAN"),
   ("Australia", "AUS"), ("Egypt", "EGY"), ("Bangladesh", "BGD"),
   ("Ethiopia", "ETH")]

/-- Embedding of `fetch_all_countries` (src/app.py lines 110-126):
returns the Aggregates-filtered, name-sorted directory on a well-formed
200 response; returns `SAMPLE_COUNTRIES` when the call raised, the
status is not 200, the envelope is too short, or `data[1]` is null
(iterating `None` raises, and the `except` falls through to the
fallback). Note an empty or fully filtered entry list yields `[]`, not
the fallback. -/
def fetch_all_countries (r : RResult CountryEntry) : List (String × String) :=
  match r with
  | .exn => SAMPLE_COUNTRIES
  | .resp status env =>
    if status = 200 then
      match env with
      | _ :: d :: _ =>
        match d with
        | none => SAMPLE_COUNTRIES
        | some entries => sortPairs (buildCountries entries)
      | _ => SAMPLE_COUNTRIES
    else SAMPLE_COUNTRIES

/-- Embedding of `fetch_countries_by_region` (src/app.py lines 161-173):
the raw dict comprehension on success, `{}` on any failure path (the
bare `except: pass` falls through to `return {}`). -/
def fetch_countries_by_region (r : RResult CountryEntry) : List (String × String) :=
  match r with
  | .exn => []
  | .resp status env =>
    if status = 200 then
      match env with
      | _ :: d :: _ =>
        match d with
        | none => []
        | some entries => buildAllDict entries
      | _ => []
    else []

/-- Embedding of `fetch_countries_by_income` (src/app.py lines 176-188),
structurally identical to the region variant. -/
def fetch_countries_by_income (r : RResult CountryEntry) : List (String × String) :=
  match r with
  | .exn => []
  | .resp status env =>
    if status = 200 then
      match env with
      | _ :: d :: _ =>
        match d with
        | none => []
        | some entries => buildAllDict entries
      | _ => []
    else []

/-- The directory selection of `main` (src/app.py lines 350-355):
region scope takes priority, then income scope, then the full listing.
`regionCode` / `incomeCode` are `REGIONS[selected_region]` /
`INCOME_GROUPS[selected_income]` (`none` = "All ...", which is falsy). -/
def availableCountries (regionCode incomeCode : Option String)
    (rRegion rIncome rAll : RResult CountryEntry) : List (String × String) :=
  match regionCode with
  | some _ => fetch_countries_by_region rRegion
  | none =>
    match incomeCode with
    | some _ => fetch_countries_by_income rIncome
    | none => fetch_all_countries rAll

/-- The delivered directory: `availableCountries` followed by the
`if not available_countries: available_countries = SAMPLE_COUNTRIES`
guard of `main` (src/app.py lines 357-358). -/
def resolve_directory (regionCode incomeCode : Option String)
    (rRegion rIncome rAll : RResult CountryEntry) : List (String × String) :=
  let available := availableCountries regionCode incomeCode rRegion rIncome rAll
  if available = [] then SAMPLE_COUNTRIES else available

/-- A row of the merged frame of `create_scatter_comparison`
(spec: JoinedObservation). -/
structure JoinedObs where
  country : String
  x : ℚ
  y : ℚ
  deriving Repr, DecidableEq

/-- Embedding of the data path of `create_scatter_comparison`
(src/app.py lines 251-254), under the spec's contract name: filter both
tables to the target year, project to (country, value), and inner-merge
on the country name. `pd.merge` emits one row per matching pair of rows,
modelled as a nested traversal; only the row multiset is relied on. -/
def join_at_year (df1 df2 : List IndicatorRecord) (year : Int) : List JoinedObs :=
  let data1 := (df1.filter (fun r => r.year == year)).map (fun r => (r.country, r.value))
  let data2 := (df2.filter (fun r => r.year == year)).map (fun r => (r.country, r.value))
  data1.flatMap (fun a => (data2.filter (fun b => b.1 == a.1)).map (fun b => ⟨a.1, a.2, b.2⟩))

/-- The memoisation key `st.cache_data` derives for a call
`fetch_world_bank_data(indicator_code, countries, start_year, end_year)`:
the tuple of argument values exactly as passed (the list keeps the
caller's order; nothing in the source sorts it). -/
def fetchCacheKey (indicator : String) (countries : List String)
    (start_year end_year : Int) : String × List String × Int × Int :=
  (indicator, countries, start_year, end_year)

/-- The path fragment `";".join(countries)` of the request URL
(src/app.py line 132). -/
def joinCodes (countries : List String) : String :=
  String.intercalate ";" countries

/-- State of the `st.cache_data` memo for `fetch_world_bank_data`:
entries of (key, stored table, expiry instant). -/
structure CacheState where
  entries : List ((String × List String × Int × Int) × List IndicatorRecord × Int)
  deriving DecidableEq

/-- One call through the `@st.cache_data(ttl=86400)` wrapper of
`fetch_world_bank_data`: a valid entry for the key (stored less than
86400 seconds ago) is returned with no remote call; otherwise the body
runs against the remote outcome `remote` and the result is stored.
Returns (result, new state, whether the remote was called). -/
def cachedFetch (now : Int) (indicator : String) (countries : List String)
    (start_year end_year : Int) (remote : RResult WBItem) (st : CacheState) :
    List IndicatorRecord × CacheState × Bool :=
  let k := fetchCacheKey indicator countries start_year end_year
  match st.entries.find? (fun e => decide (e.1 = k) && decide (now < e.2.2)) with
  | some e => (e.2.1, st, false)
  | none =>
    let v := fetch_world_bank_data remote
    (v, ⟨(k, v, now + 86400) :: st.entries⟩, true)

/-- The record an item contributes to the table: the parsed record if
the loop body appends one, `none` if it is skipped or raises. -/
def itemRecord (it : WBItem) : Option IndicatorRecord :=
  match parseItem it with
  | .ok r => r
  | .error _ => none

/-- C1 hypothesis: the remote call failed (raised / non-success status)
or the payload carries no data (short envelope, null or empty
`data[1]`). -/
def fetchFailureOrNoData (r : RResult WBItem) : Prop :=
  r = RResult.exn ∨
  (∃ s env, r = RResult.resp s env ∧ s ≠ 200) ∨
  (∃ env, r = RResult.resp 200 env ∧
    (env.length ≤ 1 ∨ env.get? 1 = some none ∨ env.get? 1 = some (some [])))

/-- C2 hypothesis: the underlying country-list fetch fails — the call
raised, the status is not 200, or the envelope is too short or has a
null `data[1]` (both of which raise inside the loop / comprehension). -/
def countriesFetchFailure (r : RResult CountryEntry) : Prop :=
  r = RResult.exn ∨
  (∃ s env, r = RResult.resp s env ∧ s ≠ 200) ∨
  (∃ env, r = RResult.resp 200 env ∧
    (env.length ≤ 1 ∨ env.get? 1 = some none))

/-- The failure event of whichever directory fetch `main` consults for
the given scope filters (region first, then income, then the full
listing). -/
def activeFetchFailure (regionCode incomeCode : Option String)
    (rRegion rIncome rAll : RResult CountryEntry) : Prop :=
  match regionCode with
  | some _ => countriesFetchFailure rRegion
  | none =>
    match incomeCode with
    | some _ => countriesFetchFailure rIncome
    | none => countriesFetchFailure rAll

/-- Sample indicator item: USA life expectancy 2015, value 79.0. -/
def demoGoodItem : WBItem :=
  ⟨some "United States", some "USA", some "2015", .num 79⟩

/-- Sample indicator item with a null value (IND 2017). -/
def demoNullItem : WBItem :=
  ⟨some "India", some "IND", some "2017", .null⟩

/-- Sample malformed indicator item: `int("not-a-year")` raises. -/
def demoBadItem : WBItem :=
  ⟨some "India", some "IND", some "not-a-year", .num 68⟩

/-- The record `demoGoodItem` normalizes to. -/
def demoGoodRec : IndicatorRecord :=
  ⟨"United States", "USA", 2015, 79⟩

/-- Sample country entry (Brazil). -/
def entryBrazil : CountryEntry :=
  ⟨"Brazil", "BRA", some "Latin America & Caribbean"⟩

/-- Sample country entry (Australia). -/
def entryAustralia : CountryEntry :=
  ⟨"Australia", "AUS", some "East Asia & Pacific"⟩

/-- Sample aggregate (non-country) entry, as the World Bank country
endpoint reports composites. -/
def entryAggregate : CountryEntry :=
  ⟨"Arab World", "ARB", some "Aggregates"⟩

/-- If some item makes the loop body raise, the whole loop (and with it
the whole batch) is aborted. -/
theorem normalizeItems_eq_none {items : List WBItem}
    (h : ∃ it ∈ items, parseItem it = .error ()) : normalizeItems items = none := by
  induction items with
  | nil => simp at h
  | cons it rest ih =>
    rcases h with ⟨x, hx, hpe⟩
    rcases List.mem_cons.mp hx with rfl | hx'
    · simp [normalizeItems, hpe]
    · cases hp : parseItem it with
      | error e => simp [normalizeItems, hp]
      | ok o =>
        have := ih ⟨x, hx', hpe⟩
        cases o <;> simp [normalizeItems, hp, this]

/-- If no item raises, the loop returns exactly the per-item records. -/
theorem normalizeItems_eq_filterMap {items : List WBItem}
    (h : ∀ it ∈ items, parseItem it ≠ .error ()) :
    normalizeItems items = some (items.filterMap itemRecord) := by
  induction items with
  | nil => rfl
  | cons it rest ih =>
    have hit := h it (List.mem_cons_self it rest)
    have hrest := ih fun x hx => h x (List.mem_cons_of_mem it hx)
    cases hp : parseItem it with
    | error e => cases e; exact absurd hp hit
    | ok o =>
      cases o with
      | none => simp [normalizeItems, hp, hrest, List.filterMap_cons, itemRecord]
      | some r => simp [normalizeItems, hp, hrest, List.filterMap_cons, itemRecord]

/-- A successful loop had no raising item. -/
theorem normalizeItems_no_error {items : List WBItem} {recs : List IndicatorRecord}
    (h : normalizeItems items = some recs) :
    ∀ it ∈ items, parseItem it ≠ .error () := by
  intro it hit hpe
  rw [normalizeItems_eq_none ⟨it, hit, hpe⟩] at h
  exact Option.noConfusion h

/-- Every record of a successful loop is the parsed form of some item. -/
theorem mem_normalizeItems {items : List WBItem} {recs : List IndicatorRecord}
    (h : normalizeItems items = some recs) {r : IndicatorRecord} (hr : r ∈ recs) :
    ∃ it ∈ items, parseItem it = .ok (some r) := by
  induction items generalizing recs with
  | nil =>
    simp [normalizeItems] at h
    subst h
    simp at hr
  | cons it rest ih =>
    cases hp : parseItem it with
    | error e => simp [normalizeItems, hp] at h
    | ok o =>
      cases o with
      | none =>
        simp only [normalizeItems, hp] at h
        obtain ⟨x, hx, hpe⟩ := ih h hr
        exact ⟨x, List.mem_cons_of_mem it hx, hpe⟩
      | some r' =>
        simp only [normalizeItems, hp, Option.map_eq_some'] at h
        obtain ⟨recs', hrest, rfl⟩ := h
        rcases List.mem_cons.mp hr with rfl | hr'
        · exact ⟨it, List.mem_cons_self it rest, hp⟩
        · obtain ⟨x, hx, hpe⟩ := ih hrest hr'
          exact ⟨x, List.mem_cons_of_mem it hx, hpe⟩

/-- An item is skipped without a record exactly when its value is null. -/
theorem parseItem_ok_none_iff (it : WBItem) :
    parseItem it = .ok none ↔ it.value = .null := by
  cases hv : it.value with
  | missing => simp [parseItem, hv]
  | null => simp [parseItem, hv]
  | nonNumeric => simp [parseItem, hv]
  | num q =>
    rcases hc : it.country with _ | c <;> rcases hcc : it.countryiso3code with _ | cc <;>
        rcases hd : it.date with _ | d <;> simp [parseItem, hv, hc, hcc, hd]
    cases pyInt d <;> simp

/-- A fully well-formed non-null item parses to the field-for-field
record: country name, iso3 code, integer-coerced year, float value. -/
theorem parseItem_fields (it : WBItem) (c cc d : String) (y : Int) (q : ℚ)
    (hc : it.country = some c) (hcc : it.countryiso3code = some cc)
    (hd : it.date = some d) (hy : pyInt d = some y) (hv : it.value = .num q) :
    parseItem it = .ok (some ⟨c, cc, y, q⟩) := by
  simp [parseItem, hv, hc, hcc, hd, hy]

/-- A parsed record's year is the integer coercion of the item's date. -/
theorem parseItem_date {it : WBItem} {r : IndicatorRecord}
    (h : parseItem it = .ok (some r)) :
    ∃ d, it.date = some d ∧ pyInt d = some r.year := by
  cases hv : it.value with
  | missing => simp [parseItem, hv] at h
  | null => simp [parseItem, hv] at h
  | nonNumeric => simp [parseItem, hv] at h
  | num q =>
    rcases hc : it.country with _ | c <;> rcases hcc : it.countryiso3code with _ | cc <;>
        rcases hd : it.date with _ | d <;> simp [parseItem, hv, hc, hcc, hd] at h
    cases hy : pyInt d with
    | none => simp [hy] at h
    | some y =>
      simp [hy] at h
      exact ⟨d, rfl, by rw [hy, ← h]⟩

/-- C1: for every remote failure (transport error / timeout / non-200
status) and for every payload whose data element is null, missing or an
empty list, `fetch_world_bank_data` returns the empty table; the
embedding is a total function, so no error propagates. -/
theorem fetch_empty_on_failure_or_no_data (r : RResult WBItem)
    (h : fetchFailureOrNoData r) : fetch_world_bank_data r = [] := by
  rcases h with rfl | ⟨s, env, rfl, hs⟩ | ⟨env, rfl, hcase⟩
  · rfl
  · simp [fetch_world_bank_data, hs]
  · rcases hcase with hlen | hnull | hempty
    · match env, hlen with
      | [], _ => rfl
      | [_], _ => rfl
      | _ :: _ :: _, hlen => simp at hlen
    · match env, hnull with
      | _ :: d :: _, hnull =>
        simp at hnull
        subst hnull
        rfl
    · match env, hempty with
      | _ :: d :: _, hempty =>
        simp at hempty
        subst hempty
        rfl

/-- C1 witness: a transport error yields the empty table. -/
theorem fetch_empty_on_failure_or_no_data_witness :
    fetchFailureOrNoData (RResult.exn : RResult WBItem) ∧
      fetch_world_bank_data RResult.exn = [] :=
  ⟨Or.inl rfl, fetch_empty_on_failure_or_no_data RResult.exn (Or.inl rfl)⟩

/-- C3: for every successfully parsed payload, the table has a record
exactly for the items whose value is non-null — skipped exactly on null
(`itemRecord it = none ↔ null`), and field-for-field (name, iso3 code,
integer-coerced year, float value) on well-formed non-null items. -/
theorem normalizer_exact (items : List WBItem) (recs : List IndicatorRecord)
    (h : normalizeItems items = some recs) :
    recs = items.filterMap itemRecord ∧
    (∀ it ∈ items, (itemRecord it = none ↔ it.value = JVal.null)) ∧
    (∀ it ∈ items, ∀ c cc d y q, it.country = some c → it.countryiso3code = some cc →
      it.date = some d → pyInt d = some y → it.value = JVal.num q →
      itemRecord it = some ⟨c, cc, y, q⟩) := by
  have hne := normalizeItems_no_error h
  refine ⟨?_, ?_, ?_⟩
  · rw [normalizeItems_eq_filterMap hne] at h
    exact (Option.some_inj.mp h).symm
  · intro it hit
    cases hp : parseItem it with
    | error e => exact absurd hp (hne it hit)
    | ok o =>
      have h2 := parseItem_ok_none_iff it
      rw [hp] at h2
      simpa [itemRecord, hp] using h2
  · intro it _ c cc d y q hc hcc hd hy hv
    simp [itemRecord, parseItem_fields it c cc d y q hc hcc hd hy hv]

/-- C3 witness: the concrete scenario of spec section 8 — USA 2015 has a
value, IND 2017 is null; the table holds exactly the USA record. -/
theorem normalizer_exact_witness :
    normalizeItems [demoGoodItem, demoNullItem] = some [demoGoodRec] ∧
      [demoGoodRec] = ([demoGoodItem, demoNullItem]).filterMap itemRecord ∧
      (itemRecord demoNullItem = none ↔ demoNullItem.value = JVal.null) :=
  ⟨by decide,
   (normalizer_exact [demoGoodItem, demoNullItem] [demoGoodRec] (by decide)).1,
   (normalizer_exact [demoGoodItem, demoNullItem] [demoGoodRec] (by decide)).2.1
     demoNullItem (by decide)⟩

/-- C4 counterexample: a batch of one well-formed non-null item and one
malformed item (a year that `int` cannot coerce) yields the EMPTY table
— the well-formed item's record is dropped with the whole batch, not
just the malformed item. -/
theorem malformed_item_drops_batch_counterexample :
    parseItem demoGoodItem = .ok (some demoGoodRec) ∧
      parseItem demoBadItem = .error () ∧
      fetch_world_bank_data (.resp 200 [none, some [demoGoodItem, demoBadItem]]) = [] ∧
      demoGoodRec ∉ fetch_world_bank_data (.resp 200 [none, some [demoGoodItem, demoBadItem]]) := by
  refine ⟨rfl, rfl, rfl, ?_⟩
  intro hmem
  rw [show fetch_world_bank_data (.resp 200 [none, some [demoGoodItem, demoBadItem]]) = []
    from rfl] at hmem
  exact List.not_mem_nil demoGoodRec hmem

/-- C4 amended: a malformed item in the payload is fatal for the whole
batch — whenever any item of `data[1]` makes the per-item coercion
raise, `fetch_world_bank_data` returns the empty table (and no error
propagates, the embedding being total). -/
theorem malformed_item_drops_batch (env : List (Option (List WBItem)))
    (items : List WBItem) (h1 : env.get? 1 = some (some items))
    (h2 : ∃ it ∈ items, parseItem it = .error ()) :
    fetch_world_bank_data (.resp 200 env) = [] := by
  match env, h1 with
  | _ :: d :: _, h1 =>
    simp at h1
    subst h1
    match items, h2 with
    | it :: rest, h2 =>
      show (normalizeItems (it :: rest)).getD [] = []
      rw [normalizeItems_eq_none h2]
      rfl

/-- C4 amended witness: the concrete two-item batch of the
counterexample, via the amended theorem. -/
theorem malformed_item_drops_batch_witness :
    fetch_world_bank_data (.resp 200 [none, some [demoGoodItem, demoBadItem]]) = [] :=
  malformed_item_drops_batch [none, some [demoGoodItem, demoBadItem]]
    [demoGoodItem, demoBadItem] rfl
    ⟨demoBadItem, List.mem_cons_of_mem _ (List.mem_cons_self _ _), rfl⟩

/-- C9: when the upstream response is successful and honors the
requested date window `date=start_year:end_year` (every item's date
coerces into the window, which is the upstream API contract for a
successful response), every record of the returned table has a year in
[start_year, end_year]. -/
theorem fetch_years_in_range (start_year end_year : Int)
    (env : List (Option (List WBItem))) (items : List WBItem)
    (h1 : env.get? 1 = some (some items))
    (h2 : ∀ it ∈ items, ∀ d y, it.date = some d → pyInt d = some y →
      start_year ≤ y ∧ y ≤ end_year) :
    ∀ rec ∈ fetch_world_bank_data (.resp 200 env),
      start_year ≤ rec.year ∧ rec.year ≤ end_year := by
  intro rec hrec
  match env, h1 with
  | _ :: d :: _, h1 =>
    simp at h1
    subst h1
    match items, h2 with
    | [], _ => simp [fetch_world_bank_data] at hrec
    | it :: rest, h2 =>
      have hrec' : rec ∈ (normalizeItems (it :: rest)).getD [] := hrec
      cases hn : normalizeItems (it :: rest) with
      | none => rw [hn] at hrec'; simp at hrec'
      | some recs =>
        rw [hn] at hrec'
        obtain ⟨x, hx, hpe⟩ := mem_normalizeItems hn hrec'
        obtain ⟨ds, hds, hy⟩ := parseItem_date hpe
        exact h2 x hx ds rec.year hds hy

/-- C9 witness: the record parsed from the USA 2015 item lies inside the
window [2015, 2017]. -/
theorem fetch_years_in_range_witness :
    (2015 : Int) ≤ demoGoodRec.year ∧ demoGoodRec.year ≤ 2017 :=
  fetch_years_in_range 2015 2017 [none, some [demoGoodItem]] [demoGoodItem] rfl
    (by
      intro it hit d y hd hy
      have : it = demoGoodItem := by simpa using hit
      subst this
      have hd' : "2015" = d := by simpa [demoGoodItem] using hd
      subst hd'
      have : (2015 : Int) = y := by
        have : pyInt "2015" = some 2015 := by decide
        rw [this] at hy
        exact Option.some_inj.mp hy
      omega)
    demoGoodRec (show demoGoodRec ∈ [demoGoodRec] from List.mem_cons_self _ _)

/-- A failing all-countries fetch returns the built-in sample
directory directly (src/app.py line 126). -/
theorem fetch_all_countries_failure {r : RResult CountryEntry}
    (h : countriesFetchFailure r) : fetch_all_countries r = SAMPLE_COUNTRIES := by
  rcases h with rfl | ⟨s, env, rfl, hs⟩ | ⟨env, rfl, hcase⟩
  · rfl
  · simp [fetch_all_countries, hs]
  · rcases hcase with hlen | hnull
    · match env, hlen with
      | [], _ => rfl
      | [_], _ => rfl
      | _ :: _ :: _, hlen => simp at hlen
    · match env, hnull with
      | _ :: d :: _, hnull =>
        simp at hnull
        subst hnull
        rfl

/-- A failing region-scoped fetch returns the empty directory
(src/app.py line 173). -/
theorem fetch_countries_by_region_failure {r : RResult CountryEntry}
    (h : countriesFetchFailure r) : fetch_countries_by_region r = [] := by
  rcases h with rfl | ⟨s, env, rfl, hs⟩ | ⟨env, rfl, hcase⟩
  · rfl
  · simp [fetch_countries_by_region, hs]
  · rcases hcase with hlen | hnull
    · match env, hlen with
      | [], _ => rfl
      | [_], _ => rfl
      | _ :: _ :: _, hlen => simp at hlen
    · match env, hnull with
      | _ :: d :: _, hnull =>
        simp at hnull
        subst hnull
        rfl

/-- A failing income-scoped fetch returns the empty directory
(src/app.py line 188). -/
theorem fetch_countries_by_income_failure {r : RResult CountryEntry}
    (h : countriesFetchFailure r) : fetch_countries_by_income r = [] := by
  rcases h with rfl | ⟨s, env, rfl, hs⟩ | ⟨env, rfl, hcase⟩
  · rfl
  · simp [fetch_countries_by_income, hs]
  · rcases hcase with hlen | hnull
    · match env, hlen with
      | [], _ => rfl
      | [_], _ => rfl
      | _ :: _ :: _, hlen => simp at hlen
    · match env, hnull with
      | _ :: d :: _, hnull =>
        simp at hnull
        subst hnull
        rfl

/-- C2: on any directory-resolution path (region-scoped, income-scoped,
or all countries), if the underlying fetch fails or the resolved
directory is empty, the directory delivered to the caller is exactly the
fixed 20-entry sample directory — hence never empty. -/
theorem resolver_fallback (regionCode incomeCode : Option String)
    (rRegion rIncome rAll : RResult CountryEntry)
    (h : activeFetchFailure regionCode incomeCode rRegion rIncome rAll ∨
      availableCountries regionCode incomeCode rRegion rIncome rAll = []) :
    resolve_directory regionCode incomeCode rRegion rIncome rAll = SAMPLE_COUNTRIES ∧
      resolve_directory regionCode incomeCode rRegion rIncome rAll ≠ [] ∧
      SAMPLE_COUNTRIES.length = 20 := by
  have hs : SAMPLE_COUNTRIES ≠ [] := by simp [SAMPLE_COUNTRIES]
  have hlen : SAMPLE_COUNTRIES.length = 20 := by rfl
  have hres : resolve_directory regionCode incomeCode rRegion rIncome rAll = SAMPLE_COUNTRIES := by
    rcases h with hf | he
    · match regionCode, hf with
      | some rc, hf =>
        have := fetch_countries_by_region_failure hf
        simp [resolve_directory, availableCountries, this]
      | none, hf =>
        match incomeCode, hf with
        | some ic, hf =>
          have := fetch_countries_by_income_failure hf
          simp [resolve_directory, availableCountries, this]
        | none, hf =>
          have := fetch_all_countries_failure hf
          simp [resolve_directory, availableCountries, this]
    · simp [resolve_directory, he]
  exact ⟨hres, hres ▸ hs, hlen⟩

/-- C2 witness: a region-scoped resolution whose fetch raised delivers
the sample directory. -/
theorem resolver_fallback_witness :
    resolve_directory (some "EAS") none RResult.exn RResult.exn RResult.exn =
        SAMPLE_COUNTRIES ∧
      resolve_directory (some "EAS") none RResult.exn RResult.exn RResult.exn ≠ [] ∧
      SAMPLE_COUNTRIES.length = 20 :=
  resolver_fallback (some "EAS") none RResult.exn RResult.exn RResult.exn
    (Or.inl (Or.inl rfl))

theorem charListLt_irrefl (l : List Char) : charListLt l l = false := by
  induction l with
  | nil => rfl
  | cons c cs ih => simp [charListLt, lt_irrefl, ih]

theorem charListLt_asymm {a b : List Char} (h : charListLt a b = true) :
    charListLt b a = false := by
  induction a generalizing b with
  | nil =>
    cases b with
    | nil => simp [charListLt] at h
    | cons d ds => rfl
  | cons c cs ih =>
    cases b with
    | nil => simp [charListLt] at h
    | cons d ds =>
      by_cases h1 : c < d
      · have h2 : ¬ d < c := lt_asymm h1
        simp [charListLt, h1, h2]
      · by_cases h2 : d < c
        · simp [charListLt, h1, h2] at h
        · simp [charListLt, h1, h2] at h ⊢
          exact ih h

theorem charListLt_trans {a b c : List Char} (h1 : charListLt a b = true)
    (h2 : charListLt b c = true) : charListLt a c = true := by
  induction a generalizing b c with
  | nil =>
    cases c with
    | nil => cases b <;> simp [charListLt] at h2
    | cons z zs => rfl
  | cons x xs ih =>
    cases b with
    | nil => simp [charListLt] at h1
    | cons y ys =>
      cases c with
      | nil => simp [charListLt] at h2
      | cons z zs =>
        by_cases hxy : x < y
        · by_cases hyz : y < z
          · have hxz : x < z := lt_trans hxy hyz
            simp [charListLt, hxz]
          · by_cases hzy : z < y
            · simp [charListLt, hyz, hzy] at h2
            · have : y = z := le_antisymm (not_lt.mp hzy) (not_lt.mp hyz)
              subst this
              simp [charListLt, hxy]
        · by_cases hyx : y < x
          · simp [charListLt, hxy, hyx] at h1
          · have : x = y := le_antisymm (not_lt.mp hyx) (not_lt.mp hxy)
            subst this
            simp [charListLt, lt_irrefl] at h1
            by_cases hxz : x < z
            · simp [charListLt, hxz]
            · by_cases hzx : z < x
              · simp [charListLt, hxz, hzx] at h2
              · have : x = z := le_antisymm (not_lt.mp hzx) (not_lt.mp hxz)
                subst this
                simp [charListLt, lt_irrefl] at h2 ⊢
                exact ih h1 h2

theorem charListLt_eq {a b : List Char} (h1 : charListLt a b = false)
    (h2 : charListLt b a = false) : a = b := by
  induction a generalizing b with
  | nil =>
    cases b with
    | nil => rfl
    | cons d ds => simp [charListLt] at h1
  | cons c cs ih =>
    cases b with
    | nil => simp [charListLt] at h2
    | cons d ds =>
      by_cases hcd : c < d
      · simp [charListLt, hcd] at h1
      · by_cases hdc : d < c
        · simp [charListLt, hdc] at h2
        · have : c = d := le_antisymm (not_lt.mp hdc) (not_lt.mp hcd)
          subst this
          simp [charListLt, lt_irrefl] at h1 h2
          rw [ih h1 h2]

theorem strLtB_asymm {a b : String} (h : strLtB a b = true) : strLtB b a = false :=
  charListLt_asymm h

theorem strEq_of_not_lt {a b : String} (h1 : strLtB a b = false)
    (h2 : strLtB b a = false) : a = b := by
  cases a with
  | mk da =>
    cases b with
    | mk db =>
      have : da = db := charListLt_eq h1 h2
      rw [this]

instance : IsTotal (String × String) pairLe := by
  constructor
  intro a b
  by_cases h1 : strLtB a.1 b.1 = true
  · exact Or.inl (Or.inl h1)
  · by_cases h2 : strLtB b.1 a.1 = true
    · exact Or.inr (Or.inl h2)
    · have heq : a.1 = b.1 :=
        strEq_of_not_lt (Bool.not_eq_true _ ▸ h1) (Bool.not_eq_true _ ▸ h2)
      by_cases h3 : strLtB b.2 a.2 = true
      · have : strLtB a.2 b.2 = false := strLtB_asymm h3
        exact Or.inr (Or.inr ⟨heq.symm, by simp [strLeB, this]⟩)
      · exact Or.inl (Or.inr ⟨heq, by simp [strLeB, Bool.not_eq_true _ ▸ h3]⟩)

instance : IsTrans (String × String) pairLe := by
  constructor
  intro a b c hab hbc
  rcases hab with hab | ⟨hab1, hab2⟩
  · rcases hbc with hbc | ⟨hbc1, hbc2⟩
    · exact Or.inl (charListLt_trans hab hbc)
    · exact Or.inl (hbc1 ▸ hab)
  · rcases hbc with hbc | ⟨hbc1, hbc2⟩
    · exact Or.inl (hab1 ▸ hbc)
    · refine Or.inr ⟨hab1.trans hbc1, ?_⟩
      simp only [strLeB, Bool.not_eq_true'] at hab2 hbc2 ⊢
      by_cases hca : strLtB c.2 a.2 = true
      · by_cases hbc' : strLtB b.2 c.2 = true
        · have h4 : strLtB b.2 a.2 = true := charListLt_trans hbc' hca
          simp [h4] at hab2
        · have : b.2 = c.2 := strEq_of_not_lt (Bool.not_eq_true _ ▸ hbc') hbc2
          rw [← this] at hca
          simp [hca] at hab2
      · exact Bool.not_eq_true _ ▸ hca

theorem pairLe_name_le {a b : String × String} (h : pairLe a b) :
    strLeB a.1 b.1 = true := by
  rcases h with h | ⟨h, _⟩
  · simp [strLeB, strLtB_asymm h]
  · simp [strLeB, h, strLtB, charListLt_irrefl]

theorem isSortedByName_of_sorted (l : List (String × String))
    (h : l.Sorted pairLe) : isSortedByName l = true := by
  induction l with
  | nil => rfl
  | cons a t ih =>
    cases t with
    | nil => rfl
    | cons b t' =>
      have h1 : pairLe a b := List.rel_of_sorted_cons h b (List.mem_cons_self b t')
      have h2 := ih (List.sorted_cons.mp h).2
      simp [isSortedByName, pairLe_name_le h1, h2]

/-- C7 counterexample: a successful (status 200, non-empty) region-scoped
resolution whose payload lists Brazil before Australia is delivered in
payload order — NOT sorted by display name, refuting the claim for the
region- and income-scoped paths. -/
theorem scoped_directory_unsorted_counterexample :
    isSortedByName
        (fetch_countries_by_region
          (.resp 200 [none, some [entryBrazil, entryAustralia]])) = false ∧
      fetch_countries_by_region
          (.resp 200 [none, some [entryBrazil, entryAustralia]]) =
        [("Brazil", "BRA"), ("Australia", "AUS")] := by
  exact ⟨by decide, by decide⟩

/-- C7 amended: only the unscoped (all-countries) path sorts: every
directory obtained from a successful all-countries resolution is sorted
by display name. -/
theorem all_countries_sorted (env : List (Option (List CountryEntry)))
    (entries : List CountryEntry) (h : env.get? 1 = some (some entries)) :
    isSortedByName (fetch_all_countries (.resp 200 env)) = true := by
  match env, h with
  | _ :: d :: _, h =>
    simp at h
    subst h
    exact isSortedByName_of_sorted _ (List.sorted_insertionSort pairLe _)

/-- C7 amended witness: the two-entry payload listed out of order comes
back sorted from the all-countries path. -/
theorem all_countries_sorted_witness :
    isSortedByName
        (fetch_all_countries (.resp 200 [none, some [entryBrazil, entryAustralia]])) = true :=
  all_countries_sorted [none, some [entryBrazil, entryAustralia]]
    [entryBrazil, entryAustralia] rfl

/-- Membership after a Python dict assignment: the pair was already
present or is the assigned pair. -/
theorem mem_dictInsert {d : List (String × String)} {k v : String}
    {p : String × String} (h : p ∈ dictInsert d k v) : p ∈ d ∨ p = (k, v) := by
  unfold dictInsert at h
  by_cases hc : d.any (fun q => q.1 == k)
  · rw [if_pos hc] at h
    obtain ⟨q, hq, hpq⟩ := List.mem_map.mp h
    by_cases hqk : q.1 == k
    · right
      rw [← hpq]
      simp [hqk]
    · left
      rw [← hpq]
      simpa [hqk] using hq
  · rw [if_neg hc] at h
    rcases List.mem_append.mp h with h | h
    · exact Or.inl h
    · right
      simpa using h

/-- Membership in the filtered dict-building fold: every pair comes from
the accumulator or from an entry satisfying the filter. -/
theorem mem_foldl_dictInsert (P : CountryEntry → Prop) [DecidablePred P]
    (entries : List CountryEntry) (acc : List (String × String))
    (p : String × String)
    (h : p ∈ entries.foldl (fun d c => if P c then dictInsert d c.name c.id else d) acc) :
    p ∈ acc ∨ ∃ e ∈ entries, P e ∧ e.name = p.1 ∧ e.id = p.2 := by
  induction entries generalizing acc with
  | nil => exact Or.inl h
  | cons e rest ih =>
    simp only [List.foldl_cons] at h
    rcases ih _ h with hacc | ⟨x, hx, hPx, hn, hi⟩
    · by_cases hP : P e
      · rw [if_pos hP] at hacc
        rcases mem_dictInsert hacc with hd | hpe
        · exact Or.inl hd
        · subst hpe
          exact Or.inr ⟨e, List.mem_cons_self e rest, hP, rfl, rfl⟩
      · rw [if_neg hP] at hacc
        exact Or.inl hacc
    · exact Or.inr ⟨x, List.mem_cons_of_mem e hx, hPx, hn, hi⟩

/-- C8 counterexample: an `Aggregates`-classified entry appears in the
region-scoped directory (the claim would exclude it on all three
paths), while the all-countries path does exclude it. -/
theorem aggregates_in_scoped_directory_counterexample :
    ("Arab World", "ARB") ∈
        fetch_countries_by_region (.resp 200 [none, some [entryAggregate]]) ∧
      ("Arab World", "ARB") ∈
        fetch_countries_by_income (.resp 200 [none, some [entryAggregate]]) ∧
      ("Arab World", "ARB") ∉
        fetch_all_countries (.resp 200 [none, some [entryAggregate]]) := by
  exact ⟨by decide, by decide, by decide⟩

/-- C8 amended: only the all-countries path filters out aggregates —
every pair of a successful all-countries directory originates from a
payload entry whose region classification is not `'Aggregates'` (the
scoped paths insert every entry, see the counterexample). -/
theorem all_countries_excludes_aggregates (env : List (Option (List CountryEntry)))
    (entries : List CountryEntry) (h1 : env.get? 1 = some (some entries))
    (p : String × String) (h2 : p ∈ fetch_all_countries (.resp 200 env)) :
    ∃ e ∈ entries, e.regionValue ≠ some "Aggregates" ∧ e.name = p.1 ∧ e.id = p.2 := by
  match env, h1 with
  | _ :: d :: _, h1 =>
    simp at h1
    subst h1
    have h3 : p ∈ buildCountries entries :=
      (List.perm_insertionSort pairLe (buildCountries entries)).mem_iff.mp h2
    have h4 := mem_foldl_dictInsert (fun c => c.regionValue ≠ some "Aggregates")
      entries [] p h3
    rcases h4 with hacc | h4
    · simp at hacc
    · exact h4

/-- C8 amended witness: Brazil's pair in a concrete all-countries
directory traces back to a non-aggregate payload entry. -/
theorem all_countries_excludes_aggregates_witness :
    ("Brazil", "BRA") ∈
        fetch_all_countries (.resp 200 [none, some [entryAggregate, entryBrazil]]) ∧
      ∃ e ∈ [entryAggregate, entryBrazil], e.regionValue ≠ some "Aggregates" ∧
        e.name = "Brazil" ∧ e.id = "BRA" :=
  ⟨by decide,
   all_countries_excludes_aggregates [none, some [entryAggregate, entryBrazil]]
     [entryAggregate, entryBrazil] rfl ("Brazil", "BRA") (by decide)⟩

/-- Membership characterization of the merged frame: one joined row per
pair of year-matching rows agreeing on the country name. -/
theorem mem_join_iff (A B : List IndicatorRecord) (Y : Int) (o : JoinedObs) :
    o ∈ join_at_year A B Y ↔
      ∃ ra ∈ A, ∃ rb ∈ B, ra.year = Y ∧ rb.year = Y ∧ rb.country = ra.country ∧
        o = ⟨ra.country, ra.value, rb.value⟩ := by
  simp only [join_at_year, List.mem_flatMap, List.mem_map, List.mem_filter, beq_iff_eq]
  constructor
  · rintro ⟨a, ⟨ra, ⟨hra, hray⟩, rfl⟩, b, ⟨⟨rb, ⟨hrb, hrby⟩, rfl⟩, hb1⟩, rfl⟩
    exact ⟨ra, hra, rb, hrb, hray, hrby, hb1, rfl⟩
  · rintro ⟨ra, hra, rb, hrb, hray, hrby, hcc, rfl⟩
    exact ⟨(ra.country, ra.value), ⟨ra, ⟨hra, hray⟩, rfl⟩,
      ⟨(rb.country, rb.value), ⟨⟨rb, ⟨hrb, hrby⟩, rfl⟩, hcc⟩, rfl⟩⟩

/-- C5: the countries appearing in `join_at_year A B Y` are exactly the
intersection of the countries having a record in A at year Y and those
having a record in B at year Y; in particular the joined country set is
symmetric in A and B. -/
theorem join_countries_intersection (A B : List IndicatorRecord) (Y : Int) (c : String) :
    ((∃ o ∈ join_at_year A B Y, o.country = c) ↔
      ((∃ r ∈ A, r.year = Y ∧ r.country = c) ∧ (∃ r ∈ B, r.year = Y ∧ r.country = c))) ∧
    ((∃ o ∈ join_at_year A B Y, o.country = c) ↔
      (∃ o ∈ join_at_year B A Y, o.country = c)) := by
  have core : ∀ A B : List IndicatorRecord,
      (∃ o ∈ join_at_year A B Y, o.country = c) ↔
        ((∃ r ∈ A, r.year = Y ∧ r.country = c) ∧ (∃ r ∈ B, r.year = Y ∧ r.country = c)) := by
    intro A B
    constructor
    · rintro ⟨o, ho, hoc⟩
      obtain ⟨ra, hra, rb, hrb, hray, hrby, hcc, rfl⟩ := (mem_join_iff A B Y o).mp ho
      exact ⟨⟨ra, hra, hray, hoc⟩, ⟨rb, hrb, hrby, hcc.trans hoc⟩⟩
    · rintro ⟨⟨ra, hra, hray, hrac⟩, ⟨rb, hrb, hrby, hrbc⟩⟩
      exact ⟨⟨ra.country, ra.value, rb.value⟩,
        (mem_join_iff A B Y _).mpr ⟨ra, hra, rb, hrb, hray, hrby, hrbc.trans hrac.symm, rfl⟩,
        hrac⟩
  exact ⟨core A B, (core A B).trans ((core B A).trans (and_comm)).symm⟩

/-- Count of joined rows a single left-hand row named `a.1` contributes:
the number of year-`Y` rows of B with that name — or none when the name
is not the one counted. -/
theorem join_block_count (B : List IndicatorRecord) (Y : Int) (c : String) (a : String × ℚ) :
    (((((B.filter (fun r => r.year == Y)).map (fun r => (r.country, r.value))).filter
          (fun b => b.1 == a.1)).map
        (fun b => (⟨a.1, a.2, b.2⟩ : JoinedObs))).countP (fun o => o.country == c)) =
      if a.1 == c then B.countP (fun r => r.year == Y && r.country == c) else 0 := by
  rw [List.countP_map]
  simp only [Function.comp_def]
  by_cases hc : (a.1 == c) = true
  · rw [if_pos hc]
    rw [List.countP_eq_length.mpr fun x _ => hc]
    rw [← List.countP_eq_length_filter, List.countP_map, List.countP_filter]
    have ha : a.1 = c := by simpa using hc
    refine List.countP_congr fun r _ => ?_
    simp only [Function.comp_def]
    rw [ha, Bool.and_comm]
  · rw [if_neg hc]
    refine List.countP_eq_zero.mpr fun x _ => ?_
    simpa using hc

/-- Sum of a constant contributed once per predicate-satisfying element. -/
theorem sum_map_ite_count {α : Type} (p : α → Bool) (K : ℕ) (l : List α) :
    (l.map (fun x => if p x then K else 0)).sum = K * l.countP p := by
  induction l with
  | nil => simp
  | cons x xs ih =>
    by_cases hp : p x
    · rw [List.map_cons, List.sum_cons, if_pos hp, ih, List.countP_cons_of_pos _ _ hp]
      ring
    · rw [List.map_cons, List.sum_cons, if_neg hp, ih, List.countP_cons_of_neg _ _ hp]
      simp

/-- C10: `join_at_year` emits one joined observation per PAIR of
year-matching records with the same country name — the number of rows
for country `c` is the product of the per-table counts, so duplicate
(country, year) records in either input multiply and country names in
the joined output need not be unique. -/
theorem join_pair_count (A B : List IndicatorRecord) (Y : Int) (c : String) :
    (join_at_year A B Y).countP (fun o => o.country == c) =
      A.countP (fun r => r.year == Y && r.country == c) *
        B.countP (fun r => r.year == Y && r.country == c) := by
  simp only [join_at_year]
  rw [List.countP_flatMap]
  simp only [Function.comp_def]
  rw [List.map_eq_map_iff.mpr (fun a _ => join_block_count B Y c a)]
  rw [List.map_map]
  simp only [Function.comp_def]
  rw [sum_map_ite_count, List.countP_filter]
  have hA : List.countP (fun r => r.country == c && r.year == Y) A =
      A.countP (fun r => r.year == Y && r.country == c) :=
    List.countP_congr fun r _ => by rw [Bool.and_comm]
  rw [hA]
  exact Nat.mul_comm _ _

/-- C6 counterexample: nothing sorts the country codes — the memo keys
of two order-permuted calls differ (and so do the request URLs), and the
second call with the permuted list performs a remote call instead of
reusing the stored entry. -/
theorem cache_key_not_sorted_counterexample :
    fetchCacheKey "SP.DYN.LE00.IN" ["USA", "IND"] 2015 2017 ≠
        fetchCacheKey "SP.DYN.LE00.IN" ["IND", "USA"] 2015 2017 ∧
      joinCodes ["USA", "IND"] ≠ joinCodes ["IND", "USA"] ∧
      (cachedFetch 0 "SP.DYN.LE00.IN" ["IND", "USA"] 2015 2017 .exn
        (cachedFetch 0 "SP.DYN.LE00.IN" ["USA", "IND"] 2015 2017 .exn ⟨[]⟩).2.1).2.2 = true := by
  exact ⟨by decide, by decide, by decide⟩

/-- C6 amended: the memo key is the argument tuple with the country
codes in the caller's order. Starting from an empty cache, a second call
before the stored entry expires returns the stored table without a
remote call when its code list is identical (same order), and performs a
remote call when the list differs (e.g. any non-trivial permutation). -/
theorem cache_key_exact_order (now now2 : Int) (ind : String) (cs cs2 : List String)
    (sy ey : Int) (r r2 : RResult WBItem) (h2 : now2 < now + 86400) :
    (cs2 = cs →
      (cachedFetch now2 ind cs2 sy ey r2 (cachedFetch now ind cs sy ey r ⟨[]⟩).2.1).1 =
          (cachedFetch now ind cs sy ey r ⟨[]⟩).1 ∧
        (cachedFetch now2 ind cs2 sy ey r2
          (cachedFetch now ind cs sy ey r ⟨[]⟩).2.1).2.2 = false) ∧
    (cs2 ≠ cs →
      (cachedFetch now2 ind cs2 sy ey r2
        (cachedFetch now ind cs sy ey r ⟨[]⟩).2.1).2.2 = true) := by
  constructor
  · rintro rfl
    constructor
    · simp [cachedFetch, fetchCacheKey, List.find?, h2]
    · simp [cachedFetch, fetchCacheKey, List.find?, h2]
  · intro hne
    simp [cachedFetch, fetchCacheKey, List.find?, Ne.symm hne]

/-- C6 amended witness: a repeat call with the identical list 10 seconds
later reuses the entry with no remote call. -/
theorem cache_key_exact_order_witness :
    (cachedFetch 10 "SP.DYN.LE00.IN" ["USA", "IND"] 2015 2017 .exn
        (cachedFetch 0 "SP.DYN.LE00.IN" ["USA", "IND"] 2015 2017 .exn ⟨[]⟩).2.1).2.2 = false :=
  ((cache_key_exact_order 0 10 "SP.DYN.LE00.IN" ["USA", "IND"] ["USA", "IND"] 2015 2017
      RResult.exn RResult.exn (by decide)).1 rfl).2

end GHDash
